import Mathlib

/-!
Verification of the JSON config utilities module
(`src-tauri/src/utils/config_utils.rs`).

The module is embedded shallowly:

* Filesystem paths are modelled by `RPath` under Unix path semantics: an
  absolute flag plus a list of non-empty components.  `parsePath`, `join`
  and `parent` mirror `Path::new`, `Path::join` and `Path::parent`.
* The filesystem is an association list from paths to entries (regular
  files with string contents, or directories); `readToString`,
  `createDirAll` and `writeFile` model `fs::read_to_string`,
  `fs::create_dir_all` and `fs::write`.  Stateful operations return the
  updated filesystem together with an `Except String` result, matching the
  `Result<_, String>` signatures of the source.
* Serde is generic in the source (`T: Serialize`, `T: Deserialize +
  Default`), so serialization and deserialization are passed as function
  parameters `ser : T → Except String String` and
  `de : String → Except String T`, with the default value as a parameter.
-/

deriving instance DecidableEq for Except

/-- A Unix path: whether it is absolute, plus its non-empty components. -/
structure RPath where
  absolute : Bool
  components : List String
deriving DecidableEq, Repr

/-- Split a character list on `/`. -/
def splitSlashAux : List Char → List Char → List String
  | [], acc => [String.mk acc.reverse]
  | c :: rest, acc =>
    if c == '/' then String.mk acc.reverse :: splitSlashAux rest []
    else splitSlashAux rest (c :: acc)

/-- Whether the string starts with `/`. -/
def startsSlash (s : String) : Bool :=
  match s.toList with
  | '/' :: _ => true
  | _ => false

/-- Parse a path string the way `Path::new` reads it under Unix semantics:
absolute iff it starts with `/`; components are the non-empty segments. -/
def parsePath (s : String) : RPath :=
  ⟨startsSlash s, (splitSlashAux s.toList []).filter (fun c => c ≠ "")⟩

/-- Join components with `/` separators. -/
def joinComponents : List String → String
  | [] => ""
  | [c] => c
  | c :: rest => c ++ "/" ++ joinComponents rest

/-- Render a path back to a string (used by the `{:?}` error messages). -/
def RPath.render (p : RPath) : String :=
  (if p.absolute then "/" else "") ++ joinComponents p.components

/-- `PathBuf::join`: joining with an absolute path replaces the whole path;
joining with a relative path appends its components. -/
def RPath.join (p : RPath) (s : String) : RPath :=
  let q := parsePath s
  if q.absolute then q else ⟨p.absolute, p.components ++ q.components⟩

/-- `Path::parent`: `none` for `/` and for the empty path, otherwise the
path with its last component dropped. -/
def RPath.parent (p : RPath) : Option RPath :=
  match p.components with
  | [] => none
  | _ :: _ => some ⟨p.absolute, p.components.dropLast⟩

/-- A filesystem entry: a regular file with its contents, or a directory. -/
inductive Entry where
  | file (content : String) : Entry
  | dir : Entry
deriving DecidableEq, Repr

/-- The filesystem: an association list from paths to entries.  A later
insertion shadows earlier entries for the same path. -/
structure FS where
  entries : List (RPath × Entry)
deriving DecidableEq, Repr

/-- First entry for `p` in an association list, if any. -/
def lookupEntries : List (RPath × Entry) → RPath → Option Entry
  | [], _ => none
  | (q, e) :: rest, p => if q = p then some e else lookupEntries rest p

/-- The entry at path `p`, if any. -/
def FS.lookup (fs : FS) (p : RPath) : Option Entry :=
  lookupEntries fs.entries p

/-- Create or overwrite the entry at `p`. -/
def FS.insert (fs : FS) (p : RPath) (e : Entry) : FS :=
  ⟨(p, e) :: fs.entries⟩

/-- `Path::exists`: the root `/` always exists; otherwise the path must
have an entry. -/
def FS.existsAt (fs : FS) (p : RPath) : Bool :=
  (p.absolute && decide (p.components = [])) || (fs.lookup p).isSome

/-- Whether an optional entry is a directory. -/
def isDirEntry : Option Entry → Bool
  | some Entry.dir => true
  | _ => false

/-- Whether `p` names an existing directory (the root `/` and the current
directory `""` always do). -/
def FS.dirExists (fs : FS) (p : RPath) : Bool :=
  decide (p.components = []) || isDirEntry (fs.lookup p)

/-- `fs::read_to_string`: contents of a regular file; an error for a
directory or a missing file. -/
def FS.readToString (fs : FS) (p : RPath) : Except String String :=
  match fs.lookup p with
  | some (Entry.file c) => Except.ok c
  | some Entry.dir => Except.error "Is a directory (os error 21)"
  | none => Except.error "No such file or directory (os error 2)"

/-- Contents of the regular file at `p`, if there is one. -/
def FS.fileContent (fs : FS) (p : RPath) : Option String :=
  match fs.lookup p with
  | some (Entry.file c) => some c
  | _ => none

/-- Worker for `create_dir_all`: walk the remaining components, creating
each missing directory; fail if a component already exists as a file. -/
def mkdirAll (fs : FS) (abs : Bool) (done : List String) :
    List String → FS × Except String Unit
  | [] => (fs, Except.ok ())
  | c :: rest =>
    match fs.lookup ⟨abs, done ++ [c]⟩ with
    | some (Entry.file _) => (fs, Except.error "File exists (os error 17)")
    | some Entry.dir => mkdirAll fs abs (done ++ [c]) rest
    | none => mkdirAll (fs.insert ⟨abs, done ++ [c]⟩ Entry.dir) abs (done ++ [c]) rest

/-- `fs::create_dir_all`: create the directory at `p` and every missing
ancestor; succeed without change when they all exist already. -/
def FS.createDirAll (fs : FS) (p : RPath) : FS × Except String Unit :=
  mkdirAll fs p.absolute [] p.components

/-- `fs::write`: fail on a directory target or a missing parent directory;
otherwise create or fully overwrite the file at `p` with `content`. -/
def FS.writeFile (fs : FS) (p : RPath) (content : String) : FS × Except String Unit :=
  if isDirEntry (fs.lookup p) then
    (fs, Except.error "Is a directory (os error 21)")
  else
    match p.parent with
    | none => (fs, Except.error "No such file or directory (os error 2)")
    | some par =>
      if fs.dirExists par then
        (fs.insert p (Entry.file content), Except.ok ())
      else
        (fs, Except.error "No such file or directory (os error 2)")

/-- `{:?}` on a Rust path shows it quoted. -/
def quoteStr (s : String) : String := "\"" ++ s ++ "\""

/-- Message of `load_json_config` when `fs::read_to_string` fails. -/
def readFailMsg (p : RPath) (e : String) : String :=
  "Failed to read config from " ++ quoteStr p.render ++ ": " ++ e

/-- Message of `load_json_config` when `serde_json::from_str` fails. -/
def parseFailMsg (p : RPath) (e : String) : String :=
  "Failed to parse config from " ++ quoteStr p.render ++ ": " ++ e

/-- Message of `save_json_config` when `fs::create_dir_all` fails. -/
def dirFailMsg (p : RPath) (e : String) : String :=
  "Failed to create config directory " ++ quoteStr p.render ++ ": " ++ e

/-- Message of `save_json_config` when `serde_json::to_string_pretty`
fails.  Note: the source formats only the cause, not the path. -/
def serFailMsg (e : String) : String :=
  "Failed to serialize config: " ++ e

/-- Message of `save_json_config` when `fs::write` fails. -/
def writeFailMsg (p : RPath) (e : String) : String :=
  "Failed to write config to " ++ quoteStr p.render ++ ": " ++ e

/-- `load_json_config` from the source: return the default when the path
does not exist, otherwise read the file and deserialize it, wrapping each
failure in its message. -/
def load_json_config {T : Type} (de : String → Except String T) (dflt : T)
    (fs : FS) (path : RPath) : Except String T :=
  if !(fs.existsAt path) then Except.ok dflt
  else
    match fs.readToString path with
    | Except.error e => Except.error (readFailMsg path e)
    | Except.ok content =>
      match de content with
      | Except.error e => Except.error (parseFailMsg path e)
      | Except.ok v => Except.ok v

/-- The serialize-then-write tail of `save_json_config`, run after the
parent directory has been handled. -/
def serializeAndWrite {T : Type} (ser : T → Except String String) (config : T)
    (path : RPath) (fs : FS) : FS × Except String Unit :=
  match ser config with
  | Except.error e => (fs, Except.error (serFailMsg e))
  | Except.ok content =>
    match fs.writeFile path content with
    | (fs2, Except.error e) => (fs2, Except.error (writeFailMsg path e))
    | (fs2, Except.ok _) => (fs2, Except.ok ())

/-- `save_json_config` from the source: ensure the parent directory exists
(`create_dir_all`), serialize to pretty JSON, then write the file, wrapping
each failure in its message. -/
def save_json_config {T : Type} (ser : T → Except String String) (config : T)
    (path : RPath) (fs : FS) : FS × Except String Unit :=
  match path.parent with
  | none => serializeAndWrite ser config path fs
  | some par =>
    match fs.createDirAll par with
    | (fs1, Except.error e) => (fs1, Except.error (dirFailMsg par e))
    | (fs1, Except.ok _) => serializeAndWrite ser config path fs1

/-- `ConfigPathBuilder`: holds the base directory. -/
structure ConfigPathBuilder where
  base_dir : RPath
deriving DecidableEq, Repr

/-- `ConfigPathBuilder::new`. -/
def ConfigPathBuilder.new (base_dir : RPath) : ConfigPathBuilder :=
  ⟨base_dir⟩

/-- `ConfigPathBuilder::build`: join the stored base directory with the
filename. -/
def ConfigPathBuilder.build (b : ConfigPathBuilder) (filename : String) : RPath :=
  b.base_dir.join filename

/-- `ConfigPathBuilder::from_home_subdir`: `dirs::home_dir()` is an
external effect, passed in as an optional resolved home directory. -/
def from_home_subdir (homeDir : Option RPath) (subdir : String) :
    Except String ConfigPathBuilder :=
  match homeDir with
  | none => Except.error "Failed to get home directory"
  | some home => Except.ok (ConfigPathBuilder.new (home.join subdir))

/-- Boolean list-prefix test on characters. -/
def listPre : List Char → List Char → Bool
  | [], _ => true
  | _ :: _, [] => false
  | a :: as, b :: bs => a == b && listPre as bs

/-- Boolean contiguous-sublist test on characters. -/
def listContains (hay nee : List Char) : Bool :=
  match hay with
  | [] => nee.isEmpty
  | _ :: t => listPre nee hay || listContains t nee

/-- Whether `nee` occurs as a contiguous substring of `hay`. -/
def strContainsB (hay nee : String) : Bool :=
  listContains hay.toList nee.toList

/-- The `TestConfig` struct of the module's tests. -/
structure TestConfig where
  name : String
  value : Int
deriving DecidableEq, Repr

/-- The pretty-printed JSON text `serde_json::to_string_pretty` produces
for `TestConfig { name: "test", value: 42 }`. -/
def demoJson : String :=
  "\x7b\n  \"name\": \"test\",\n  \"value\": 42\n\x7d"

/-- A serializer for `TestConfig` covering the test value. -/
def demoSer (c : TestConfig) : Except String String :=
  if c = ⟨"test", 42⟩ then Except.ok demoJson
  else Except.error "unsupported value"

/-- A deserializer for `TestConfig` covering the test value. -/
def demoDe (s : String) : Except String TestConfig :=
  if s = demoJson then Except.ok ⟨"test", 42⟩
  else Except.error "expected value at line 1 column 1"

/-- The empty filesystem. -/
def emptyFS : FS := ⟨[]⟩

theorem lookup_insert_self (fs : FS) (p : RPath) (e : Entry) :
    (fs.insert p e).lookup p = some e := by
  simp [FS.insert, FS.lookup, lookupEntries]

theorem lookup_insert_of_ne (fs : FS) (p q : RPath) (e : Entry) (h : q ≠ p) :
    (fs.insert p e).lookup q = fs.lookup q := by
  simp [FS.insert, FS.lookup, lookupEntries, Ne.symm h]

theorem isDirEntry_eq_true (o : Option Entry) :
    isDirEntry o = true ↔ o = some Entry.dir := by
  cases o with
  | none => simp [isDirEntry]
  | some e => cases e <;> simp [isDirEntry]

theorem fileContent_insert_dir (fs : FS) (p q : RPath) (h : fs.lookup p = none) :
    (fs.insert p Entry.dir).fileContent q = fs.fileContent q := by
  by_cases hq : q = p
  · subst hq; simp [FS.fileContent, lookup_insert_self, h]
  · simp [FS.fileContent, lookup_insert_of_ne _ _ _ _ hq]

theorem mkdirAll_ok_dirExists (abs : Bool) :
    ∀ (cs : List String) (fs : FS) (done : List String),
      fs.dirExists ⟨abs, done⟩ = true →
      (mkdirAll fs abs done cs).2 = Except.ok () →
      (mkdirAll fs abs done cs).1.dirExists ⟨abs, done ++ cs⟩ = true
  | [], fs, done, hdir, _ => by simpa [mkdirAll] using hdir
  | c :: rest, fs, done, hdir, hok => by
    cases hl : fs.lookup ⟨abs, done ++ [c]⟩ with
    | some e =>
      cases e with
      | file s => simp [mkdirAll, hl] at hok
      | dir =>
        have ih := mkdirAll_ok_dirExists abs rest fs (done ++ [c])
          (by simp [FS.dirExists, hl, isDirEntry])
          (by simpa [mkdirAll, hl] using hok)
        simpa [mkdirAll, hl, List.append_assoc] using ih
    | none =>
      have ih := mkdirAll_ok_dirExists abs rest
        (fs.insert ⟨abs, done ++ [c]⟩ Entry.dir) (done ++ [c])
        (by simp [FS.dirExists, lookup_insert_self, isDirEntry])
        (by simpa [mkdirAll, hl] using hok)
      simpa [mkdirAll, hl, List.append_assoc] using ih

theorem mkdirAll_preserves_some (abs : Bool) :
    ∀ (cs : List String) (fs : FS) (done : List String) (q : RPath) (e0 : Entry),
      fs.lookup q = some e0 →
      (mkdirAll fs abs done cs).1.lookup q = some e0
  | [], fs, done, q, e0, h => by simpa [mkdirAll] using h
  | c :: rest, fs, done, q, e0, h => by
    cases hl : fs.lookup ⟨abs, done ++ [c]⟩ with
    | some e =>
      cases e with
      | file s => simpa [mkdirAll, hl] using h
      | dir =>
        have ih := mkdirAll_preserves_some abs rest fs (done ++ [c]) q e0 h
        simpa [mkdirAll, hl] using ih
    | none =>
      have hne : q ≠ (⟨abs, done ++ [c]⟩ : RPath) := by
        intro heq; rw [heq, hl] at h; exact Option.noConfusion h
      have ih := mkdirAll_preserves_some abs rest
        (fs.insert ⟨abs, done ++ [c]⟩ Entry.dir) (done ++ [c]) q e0
        (by rw [lookup_insert_of_ne _ _ _ _ hne]; exact h)
      simpa [mkdirAll, hl] using ih

theorem mkdirAll_fileContent (abs : Bool) :
    ∀ (cs : List String) (fs : FS) (done : List String) (q : RPath),
      (mkdirAll fs abs done cs).1.fileContent q = fs.fileContent q
  | [], fs, done, q => by simp [mkdirAll]
  | c :: rest, fs, done, q => by
    cases hl : fs.lookup ⟨abs, done ++ [c]⟩ with
    | some e =>
      cases e with
      | file s => simp [mkdirAll, hl]
      | dir =>
        have ih := mkdirAll_fileContent abs rest fs (done ++ [c]) q
        simpa [mkdirAll, hl] using ih
    | none =>
      have ih := mkdirAll_fileContent abs rest
        (fs.insert ⟨abs, done ++ [c]⟩ Entry.dir) (done ++ [c]) q
      have hfc := fileContent_insert_dir fs ⟨abs, done ++ [c]⟩ q hl
      simp only [mkdirAll, hl]
      rw [ih, hfc]

theorem mkdirAll_all_dirs (abs : Bool) :
    ∀ (cs : List String) (fs : FS) (done : List String),
      (∀ n, n < cs.length →
        isDirEntry (fs.lookup ⟨abs, done ++ cs.take (n+1)⟩) = true) →
      mkdirAll fs abs done cs = (fs, Except.ok ())
  | [], fs, done, _ => rfl
  | c :: rest, fs, done, hall => by
    have h0 := hall 0 (by simp)
    rw [show (c :: rest).take 1 = [c] from rfl] at h0
    rw [isDirEntry_eq_true] at h0
    have ih := mkdirAll_all_dirs abs rest fs (done ++ [c]) (fun n hn => by
      have h := hall (n+1) (by simpa using Nat.succ_lt_succ hn)
      simpa [List.take_succ_cons, List.append_assoc] using h)
    simp [mkdirAll, h0, ih]

theorem listContains_nil_nee : ∀ hay : List Char, listContains hay [] = true
  | [] => rfl
  | _ :: t => by simp [listContains, listPre]

theorem listPre_self_append : ∀ (s q : List Char), listPre s (s ++ q) = true
  | [], _ => rfl
  | a :: as, q => by simp [listPre, listPre_self_append as q]

theorem listContains_append : ∀ (x s y : List Char), listContains (x ++ s ++ y) s = true
  | [], s, y => by
    cases s with
    | nil => simpa using listContains_nil_nee y
    | cons a as =>
      simp only [List.nil_append, List.cons_append, listContains, Bool.or_eq_true]
      exact Or.inl (listPre_self_append (a :: as) y)
  | c :: t, s, y => by
    simp only [List.cons_append, listContains, Bool.or_eq_true]
    exact Or.inr (listContains_append t s y)

theorem strContainsB_append (x s y : String) : strContainsB (x ++ s ++ y) s = true := by
  have h : (x ++ s ++ y).toList = x.toList ++ s.toList ++ y.toList := by
    simp [String.toList, String.data_append]
  simp only [strContainsB, h]
  exact listContains_append _ _ _

theorem strContains_quoted (x s y : String) :
    strContainsB (x ++ quoteStr s ++ y) s = true := by
  have h : x ++ quoteStr s ++ y = (x ++ "\"") ++ s ++ ("\"" ++ y) := by
    simp [quoteStr, String.append_assoc]
  rw [h]
  exact strContainsB_append _ _ _

theorem readFailMsg_contains (p : RPath) (e : String) :
    strContainsB (readFailMsg p e) p.render = true := by
  have h : readFailMsg p e
      = "Failed to read config from " ++ quoteStr p.render ++ (": " ++ e) := by
    simp [readFailMsg, String.append_assoc]
  rw [h]
  exact strContains_quoted _ _ _

theorem parseFailMsg_contains (p : RPath) (e : String) :
    strContainsB (parseFailMsg p e) p.render = true := by
  have h : parseFailMsg p e
      = "Failed to parse config from " ++ quoteStr p.render ++ (": " ++ e) := by
    simp [parseFailMsg, String.append_assoc]
  rw [h]
  exact strContains_quoted _ _ _

theorem dirFailMsg_contains (p : RPath) (e : String) :
    strContainsB (dirFailMsg p e) p.render = true := by
  have h : dirFailMsg p e
      = "Failed to create config directory " ++ quoteStr p.render ++ (": " ++ e) := by
    simp [dirFailMsg, String.append_assoc]
  rw [h]
  exact strContains_quoted _ _ _

theorem writeFailMsg_contains (p : RPath) (e : String) :
    strContainsB (writeFailMsg p e) p.render = true := by
  have h : writeFailMsg p e
      = "Failed to write config to " ++ quoteStr p.render ++ (": " ++ e) := by
    simp [writeFailMsg, String.append_assoc]
  rw [h]
  exact strContains_quoted _ _ _

theorem serFailMsg_contains_cause (e : String) :
    strContainsB (serFailMsg e) e = true := by
  have h : serFailMsg e = "Failed to serialize config: " ++ e ++ "" := by
    simp [serFailMsg]
  rw [h]
  exact strContainsB_append _ _ _

theorem serializeAndWrite_ok {T : Type} (ser : T → Except String String) (v : T)
    (p : RPath) (fs : FS)
    (hok : (serializeAndWrite ser v p fs).2 = Except.ok ()) :
    ∃ c, ser v = Except.ok c ∧
      (serializeAndWrite ser v p fs).1.lookup p = some (Entry.file c) := by
  cases hser : ser v with
  | error e => simp [serializeAndWrite, hser] at hok
  | ok c =>
    refine ⟨c, rfl, ?_⟩
    cases hd : isDirEntry (fs.lookup p) with
    | true => simp [serializeAndWrite, hser, FS.writeFile, hd] at hok
    | false =>
      cases hpar : p.parent with
      | none => simp [serializeAndWrite, hser, FS.writeFile, hd, hpar] at hok
      | some par =>
        cases hde : fs.dirExists par with
        | false => simp [serializeAndWrite, hser, FS.writeFile, hd, hpar, hde] at hok
        | true =>
          simp [serializeAndWrite, hser, FS.writeFile, hd, hpar, hde, lookup_insert_self]

theorem save_ok_lookup {T : Type} (ser : T → Except String String) (v : T)
    (p : RPath) (fs : FS)
    (hok : (save_json_config ser v p fs).2 = Except.ok ()) :
    ∃ c, ser v = Except.ok c ∧
      (save_json_config ser v p fs).1.lookup p = some (Entry.file c) := by
  cases hpar : p.parent with
  | none =>
    have h : (serializeAndWrite ser v p fs).2 = Except.ok () := by
      simpa [save_json_config, hpar] using hok
    have := serializeAndWrite_ok ser v p fs h
    simpa [save_json_config, hpar] using this
  | some par =>
    cases hcd : fs.createDirAll par with
    | mk fs1 r =>
      cases r with
      | error e => simp [save_json_config, hpar, hcd] at hok
      | ok u =>
        cases u
        have h : (serializeAndWrite ser v p fs1).2 = Except.ok () := by
          simpa [save_json_config, hpar, hcd] using hok
        have := serializeAndWrite_ok ser v p fs1 h
        simpa [save_json_config, hpar, hcd] using this

/-- C1: for every value `v` of a serializable/deserializable type (serde
coherent at `v`) and every valid target path `p` (one at which the save
succeeds), `save_json_config` followed by `load_json_config` succeeds and
returns a value equal to `v`. -/
theorem save_load_roundtrip {T : Type} (ser : T → Except String String)
    (de : String → Except String T) (dflt v : T) (fs : FS) (p : RPath)
    (hrt : ∀ c, ser v = Except.ok c → de c = Except.ok v)
    (hok : (save_json_config ser v p fs).2 = Except.ok ()) :
    load_json_config de dflt (save_json_config ser v p fs).1 p = Except.ok v := by
  obtain ⟨c, hser, hlook⟩ := save_ok_lookup ser v p fs hok
  have hex : (save_json_config ser v p fs).1.existsAt p = true := by
    simp [FS.existsAt, hlook]
  simp [load_json_config, hex, FS.readToString, hlook, hrt c hser]

/-- C1 witness: the round trip at the test value
`TestConfig { name: "test", value: 42 }` and path `/tmp/test_config.json`. -/
theorem save_load_roundtrip_witness :
    load_json_config demoDe ⟨"", 0⟩
      (save_json_config demoSer ⟨"test", 42⟩ (parsePath "/tmp/test_config.json") emptyFS).1
      (parsePath "/tmp/test_config.json")
      = Except.ok ⟨"test", 42⟩ :=
  save_load_roundtrip demoSer demoDe ⟨"", 0⟩ ⟨"test", 42⟩ emptyFS
    (parsePath "/tmp/test_config.json")
    (fun c hc => by
      have hd : demoSer ⟨"test", 42⟩ = Except.ok demoJson := by decide
      rw [hd] at hc
      injection hc with h
      rw [← h]
      decide)
    (by decide)

/-- C2: loading from a path at which no filesystem entry exists succeeds
and returns the default value of the type. -/
theorem load_missing_returns_default {T : Type} (de : String → Except String T)
    (dflt : T) (fs : FS) (p : RPath)
    (h : fs.existsAt p = false) :
    load_json_config de dflt fs p = Except.ok dflt := by
  simp [load_json_config, h]

/-- C2 witness: loading `/tmp/nonexistent_config.json` from the empty
filesystem yields the default `TestConfig`. -/
theorem load_missing_returns_default_witness :
    load_json_config demoDe ⟨"", 0⟩ emptyFS (parsePath "/tmp/nonexistent_config.json")
      = Except.ok ⟨"", 0⟩ :=
  load_missing_returns_default demoDe ⟨"", 0⟩ emptyFS
    (parsePath "/tmp/nonexistent_config.json") (by decide)

/-- C4: whenever `save_json_config` succeeds, the file at the target path
contains exactly the serialized text (its previous content, if any, is
fully replaced). -/
theorem save_ok_file_content {T : Type} (ser : T → Except String String) (v : T)
    (p : RPath) (fs : FS)
    (hok : (save_json_config ser v p fs).2 = Except.ok ()) :
    ∃ c, ser v = Except.ok c ∧
      (save_json_config ser v p fs).1.fileContent p = some c := by
  obtain ⟨c, hser, hlook⟩ := save_ok_lookup ser v p fs hok
  exact ⟨c, hser, by simp [FS.fileContent, hlook]⟩

/-- C4 witness: saving over a file that already holds other content leaves
exactly the pretty-printed serialization. -/
theorem save_ok_file_content_witness :
    ∃ c, demoSer ⟨"test", 42⟩ = Except.ok c ∧
      (save_json_config demoSer ⟨"test", 42⟩ (parsePath "/tmp/app/config.json")
        (FS.mk [(⟨true, ["tmp", "app", "config.json"]⟩, Entry.file "old content"),
                (⟨true, ["tmp", "app"]⟩, Entry.dir),
                (⟨true, ["tmp"]⟩, Entry.dir)])).1.fileContent
        (parsePath "/tmp/app/config.json") = some c :=
  save_ok_file_content demoSer ⟨"test", 42⟩ (parsePath "/tmp/app/config.json")
    (FS.mk [(⟨true, ["tmp", "app", "config.json"]⟩, Entry.file "old content"),
            (⟨true, ["tmp", "app"]⟩, Entry.dir),
            (⟨true, ["tmp"]⟩, Entry.dir)])
    (by decide)

/-- C3: every load lands in exactly one of four outcomes — default (file
absent), parsed value (present and valid), read error, or parse error —
the guards being mutually exclusive by construction; and invalid-JSON
content yields the parse-category error, distinct from the missing-file
outcome. -/
theorem load_four_outcomes {T : Type} (de : String → Except String T) (dflt : T)
    (fs : FS) (p : RPath) :
    ((fs.existsAt p = false ∧ load_json_config de dflt fs p = Except.ok dflt)
      ∨ (fs.existsAt p = true ∧ ∃ c v, fs.readToString p = Except.ok c
          ∧ de c = Except.ok v ∧ load_json_config de dflt fs p = Except.ok v)
      ∨ (fs.existsAt p = true ∧ ∃ e, fs.readToString p = Except.error e
          ∧ load_json_config de dflt fs p = Except.error (readFailMsg p e))
      ∨ (fs.existsAt p = true ∧ ∃ c e, fs.readToString p = Except.ok c
          ∧ de c = Except.error e
          ∧ load_json_config de dflt fs p = Except.error (parseFailMsg p e)))
    ∧ (∀ c e, fs.existsAt p = true → fs.readToString p = Except.ok c →
        de c = Except.error e →
        load_json_config de dflt fs p = Except.error (parseFailMsg p e)
        ∧ load_json_config de dflt fs p ≠ Except.ok dflt) := by
  constructor
  · cases hex : fs.existsAt p with
    | false => exact Or.inl ⟨rfl, by simp [load_json_config, hex]⟩
    | true =>
      cases hr : fs.readToString p with
      | error e =>
        exact Or.inr (Or.inr (Or.inl ⟨rfl, e, rfl, by simp [load_json_config, hex, hr]⟩))
      | ok c =>
        cases hde : de c with
        | ok v =>
          exact Or.inr (Or.inl ⟨rfl, c, v, rfl, hde, by simp [load_json_config, hex, hr, hde]⟩)
        | error e =>
          exact Or.inr (Or.inr (Or.inr ⟨rfl, c, e, rfl, hde,
            by simp [load_json_config, hex, hr, hde]⟩))
  · intro c e hex hr hde
    have h : load_json_config de dflt fs p = Except.error (parseFailMsg p e) := by
      simp [load_json_config, hex, hr, hde]
    exact ⟨h, by simp [h]⟩

/-- C3 witness: a file holding invalid JSON yields the parse error message,
which is not the missing-file default outcome. -/
theorem load_four_outcomes_witness :
    load_json_config demoDe ⟨"", 0⟩
      (FS.mk [(⟨true, ["tmp", "bad.json"]⟩, Entry.file "not json at all")])
      (parsePath "/tmp/bad.json")
      = Except.error (parseFailMsg (parsePath "/tmp/bad.json")
          "expected value at line 1 column 1")
    ∧ load_json_config demoDe ⟨"", 0⟩
      (FS.mk [(⟨true, ["tmp", "bad.json"]⟩, Entry.file "not json at all")])
      (parsePath "/tmp/bad.json")
      ≠ Except.ok ⟨"", 0⟩ :=
  (load_four_outcomes demoDe ⟨"", 0⟩
      (FS.mk [(⟨true, ["tmp", "bad.json"]⟩, Entry.file "not json at all")])
      (parsePath "/tmp/bad.json")).2
    "not json at all" "expected value at line 1 column 1"
    (by decide) (by decide) (by decide)

/-- C5: `save_json_config` first ensures the parent directory exists —
if creating it fails the save fails with the directory error carrying the
parent path; on success every missing ancestor now exists (existing
entries untouched); when the whole parent chain already consists of
directories, `create_dir_all` leaves the filesystem as is; and saving to a
path whose parent tree was just created succeeds and writes the file. -/
theorem save_parent_dir_handling {T : Type} (ser : T → Except String String) (v : T) :
    (∀ (p par : RPath) (fs fs1 : FS) (e : String),
        p.parent = some par → fs.createDirAll par = (fs1, Except.error e) →
        save_json_config ser v p fs = (fs1, Except.error (dirFailMsg par e)))
    ∧ (∀ (par : RPath) (fs fs1 : FS),
        fs.createDirAll par = (fs1, Except.ok ()) →
        fs1.dirExists par = true
        ∧ ∀ (q : RPath) (e0 : Entry), fs.lookup q = some e0 → fs1.lookup q = some e0)
    ∧ (∀ (par : RPath) (fs : FS),
        (∀ n, n < par.components.length →
          isDirEntry (fs.lookup ⟨par.absolute, par.components.take (n+1)⟩) = true) →
        fs.createDirAll par = (fs, Except.ok ()))
    ∧ (∀ (p par : RPath) (fs fs1 : FS) (c : String),
        p.parent = some par → fs.createDirAll par = (fs1, Except.ok ()) →
        ser v = Except.ok c → isDirEntry (fs1.lookup p) = false →
        save_json_config ser v p fs = (fs1.insert p (Entry.file c), Except.ok ())) := by
  refine ⟨?_, ?_, ?_, ?_⟩
  · intro p par fs fs1 e hpar hcd
    simp [save_json_config, hpar, hcd]
  · intro par fs fs1 hcd
    constructor
    · have h2 : (mkdirAll fs par.absolute [] par.components).2 = Except.ok () := by
        rw [show mkdirAll fs par.absolute [] par.components = (fs1, Except.ok ())
          from hcd]
      have h := mkdirAll_ok_dirExists par.absolute par.components fs []
        (by simp [FS.dirExists]) h2
      rw [show mkdirAll fs par.absolute [] par.components = (fs1, Except.ok ())
        from hcd] at h
      simpa using h
    · intro q e0 hq
      have h := mkdirAll_preserves_some par.absolute par.components fs [] q e0 hq
      rw [show mkdirAll fs par.absolute [] par.components = (fs1, Except.ok ())
        from hcd] at h
      exact h
  · intro par fs hall
    exact mkdirAll_all_dirs par.absolute par.components fs [] (fun n hn => by
      simpa using hall n hn)
  · intro p par fs fs1 c hpar hcd hser hdir
    have hde : fs1.dirExists par = true := by
      have h2 : (mkdirAll fs par.absolute [] par.components).2 = Except.ok () := by
        rw [show mkdirAll fs par.absolute [] par.components = (fs1, Except.ok ())
          from hcd]
      have h := mkdirAll_ok_dirExists par.absolute par.components fs []
        (by simp [FS.dirExists]) h2
      rw [show mkdirAll fs par.absolute [] par.components = (fs1, Except.ok ())
        from hcd] at h
      simpa using h
    simp [save_json_config, hpar, hcd, serializeAndWrite, hser,
      FS.writeFile, hdir, hde]

/-- C5 witness: saving to `/tmp/newdir/sub/config.json` on an empty
filesystem creates `/tmp`, `/tmp/newdir` and `/tmp/newdir/sub`, then
writes the file. -/
theorem save_parent_dir_handling_witness :
    save_json_config demoSer ⟨"test", 42⟩ (parsePath "/tmp/newdir/sub/config.json") emptyFS
      = ((FS.mk [(⟨true, ["tmp", "newdir", "sub"]⟩, Entry.dir),
                 (⟨true, ["tmp", "newdir"]⟩, Entry.dir),
                 (⟨true, ["tmp"]⟩, Entry.dir)]).insert
           (parsePath "/tmp/newdir/sub/config.json") (Entry.file demoJson),
         Except.ok ()) :=
  (save_parent_dir_handling demoSer ⟨"test", 42⟩).2.2.2
    (parsePath "/tmp/newdir/sub/config.json") (parsePath "/tmp/newdir/sub") emptyFS
    (FS.mk [(⟨true, ["tmp", "newdir", "sub"]⟩, Entry.dir),
            (⟨true, ["tmp", "newdir"]⟩, Entry.dir),
            (⟨true, ["tmp"]⟩, Entry.dir)])
    demoJson (by decide) (by decide) (by decide) (by decide)

/-- C6: `ConfigPathBuilder::build` is a pure function of the stored base
directory and the filename — it is exactly the path join — and for base
`/test/dir` and filename `config.json` it returns
`/test/dir/config.json` under Unix path semantics. -/
theorem build_joins_base :
    (∀ (base : RPath) (filename : String),
        (ConfigPathBuilder.new base).build filename = base.join filename)
    ∧ (ConfigPathBuilder.new (parsePath "/test/dir")).build "config.json"
        = parsePath "/test/dir/config.json" :=
  ⟨fun _ _ => rfl, by decide⟩

/-- C7: `from_home_subdir` fails with the home-directory error exactly
when the home directory cannot be resolved; otherwise the builder's base
is `home/subdir`, so a subsequent `build filename` yields
`home/subdir/filename`. -/
theorem from_home_subdir_spec (subdir filename : String) :
    (from_home_subdir none subdir = Except.error "Failed to get home directory")
    ∧ (∀ home : RPath, from_home_subdir (some home) subdir
        = Except.ok (ConfigPathBuilder.new (home.join subdir)))
    ∧ (∀ (home : RPath) (b : ConfigPathBuilder),
        from_home_subdir (some home) subdir = Except.ok b →
        b.build filename = (home.join subdir).join filename) := by
  refine ⟨rfl, fun home => rfl, fun home b h => ?_⟩
  simp only [from_home_subdir, Except.ok.injEq] at h
  rw [← h]
  rfl

/-- C7 witness: with home `/home/user` and subdirectory `.claude`, the
builder returned by `from_home_subdir` builds `settings.json` into
`/home/user/.claude/settings.json`. -/
theorem from_home_subdir_spec_witness :
    (ConfigPathBuilder.new ((parsePath "/home/user").join ".claude")).build "settings.json"
      = ((parsePath "/home/user").join ".claude").join "settings.json"
    ∧ (ConfigPathBuilder.new ((parsePath "/home/user").join ".claude")).build "settings.json"
      = parsePath "/home/user/.claude/settings.json" :=
  ⟨(from_home_subdir_spec ".claude" "settings.json").2.2 (parsePath "/home/user")
      (ConfigPathBuilder.new ((parsePath "/home/user").join ".claude")) rfl,
    by decide⟩

/-- C9: when the filename passed to `build` is itself an absolute path,
the result is that filename alone and the stored base directory is
discarded. -/
theorem build_absolute_filename (base : RPath) (filename : String)
    (h : (parsePath filename).absolute = true) :
    (ConfigPathBuilder.new base).build filename = parsePath filename := by
  simp [ConfigPathBuilder.build, ConfigPathBuilder.new, RPath.join, h]

/-- C9 witness: building `/etc/passwd` on base `/test/dir` returns
`/etc/passwd`, not a path under the base. -/
theorem build_absolute_filename_witness :
    (parsePath "/etc/passwd").absolute = true
    ∧ (ConfigPathBuilder.new (parsePath "/test/dir")).build "/etc/passwd"
        = parsePath "/etc/passwd" :=
  ⟨by decide, build_absolute_filename (parsePath "/test/dir") "/etc/passwd" (by decide)⟩

/-- C10: if serialization fails after the parent directory step, the save
returns the serialization error without writing anything: the directories
created remain, but the content of every file — in particular the target
file — is unchanged. -/
theorem save_serialize_failure {T : Type} (ser : T → Except String String) (v : T)
    (p par : RPath) (fs fs1 : FS) (e : String)
    (hpar : p.parent = some par)
    (hcd : fs.createDirAll par = (fs1, Except.ok ()))
    (hser : ser v = Except.error e) :
    save_json_config ser v p fs = (fs1, Except.error (serFailMsg e))
    ∧ ∀ q : RPath, fs1.fileContent q = fs.fileContent q := by
  constructor
  · simp [save_json_config, hpar, hcd, serializeAndWrite, hser]
  · intro q
    have h := mkdirAll_fileContent par.absolute par.components fs [] q
    rw [show mkdirAll fs par.absolute [] par.components = (fs1, Except.ok ())
      from hcd] at h
    exact h

/-- C10 witness: a failing serializer on `/tmp/app/config.json` leaves the
created directories but no file, and returns the serialization error. -/
theorem save_serialize_failure_witness :
    save_json_config (fun _ => (Except.error "boom" : Except String String)) ()
      (parsePath "/tmp/app/config.json") emptyFS
      = (FS.mk [(⟨true, ["tmp", "app"]⟩, Entry.dir), (⟨true, ["tmp"]⟩, Entry.dir)],
         Except.error (serFailMsg "boom"))
    ∧ (FS.mk [(⟨true, ["tmp", "app"]⟩, Entry.dir),
              (⟨true, ["tmp"]⟩, Entry.dir)]).fileContent
        (parsePath "/tmp/app/config.json")
      = emptyFS.fileContent (parsePath "/tmp/app/config.json") :=
  ⟨(save_serialize_failure (fun _ => (Except.error "boom" : Except String String)) ()
      (parsePath "/tmp/app/config.json") (parsePath "/tmp/app") emptyFS
      (FS.mk [(⟨true, ["tmp", "app"]⟩, Entry.dir), (⟨true, ["tmp"]⟩, Entry.dir)])
      "boom" (by decide) (by decide) rfl).1,
    (save_serialize_failure (fun _ => (Except.error "boom" : Except String String)) ()
      (parsePath "/tmp/app/config.json") (parsePath "/tmp/app") emptyFS
      (FS.mk [(⟨true, ["tmp", "app"]⟩, Entry.dir), (⟨true, ["tmp"]⟩, Entry.dir)])
      "boom" (by decide) (by decide) rfl).2 (parsePath "/tmp/app/config.json")⟩

theorem serializeAndWrite_error {T : Type} (ser : T → Except String String) (v : T)
    (p : RPath) (fs : FS) (err : String)
    (herr : (serializeAndWrite ser v p fs).2 = Except.error err) :
    (∃ e, ser v = Except.error e ∧ err = serFailMsg e)
    ∨ (∃ e, err = writeFailMsg p e) := by
  cases hser : ser v with
  | error e =>
    simp [serializeAndWrite, hser] at herr
    exact Or.inl ⟨e, rfl, herr.symm⟩
  | ok c =>
    cases hw : fs.writeFile p c with
    | mk fs2 r =>
      cases r with
      | ok u => simp [serializeAndWrite, hser, hw] at herr
      | error e2 =>
        simp [serializeAndWrite, hser, hw] at herr
        exact Or.inr ⟨e2, herr.symm⟩

/-- C8 counterexample: the claim says every error message includes the
offending path, in particular the serialization-failure error of
`save_json_config`; but at this concrete input the serialization error is
`Failed to serialize config: key must be a string`, which does not contain
the target path. -/
theorem serialize_error_lacks_path :
    (save_json_config
        (fun _ => (Except.error "key must be a string" : Except String String)) ()
        (parsePath "/tmp/cfg/settings.json") emptyFS).2
      = Except.error "Failed to serialize config: key must be a string"
    ∧ strContainsB "Failed to serialize config: key must be a string"
        (RPath.render (parsePath "/tmp/cfg/settings.json")) = false :=
  ⟨by decide, by decide⟩

/-- C8 (amended): every error of `load_json_config` includes the offending
path; every error of `save_json_config` is the directory error (which
includes the parent path), the write error (which includes the target
path), or the serialization error (which includes only the underlying
cause, not the path); and the home-directory error is the fixed message
`Failed to get home directory`. -/
theorem error_messages_content {T : Type} (de : String → Except String T) (dflt : T)
    (ser : T → Except String String) (v : T) :
    (∀ (fs : FS) (p : RPath) (err : String),
        load_json_config de dflt fs p = Except.error err →
        strContainsB err p.render = true)
    ∧ (∀ (fs : FS) (p : RPath) (err : String),
        (save_json_config ser v p fs).2 = Except.error err →
        (∃ par e, p.parent = some par ∧ err = dirFailMsg par e
            ∧ strContainsB err par.render = true)
        ∨ (∃ e, ser v = Except.error e ∧ err = serFailMsg e
            ∧ strContainsB err e = true)
        ∨ (∃ e, err = writeFailMsg p e ∧ strContainsB err p.render = true))
    ∧ (∀ subdir : String,
        from_home_subdir none subdir = Except.error "Failed to get home directory") := by
  refine ⟨?_, ?_, fun _ => rfl⟩
  · intro fs p err herr
    cases hex : fs.existsAt p with
    | false => simp [load_json_config, hex] at herr
    | true =>
      cases hr : fs.readToString p with
      | error e =>
        simp [load_json_config, hex, hr] at herr
        rw [← herr]
        exact readFailMsg_contains p e
      | ok c =>
        cases hde : de c with
        | ok w => simp [load_json_config, hex, hr, hde] at herr
        | error e =>
          simp [load_json_config, hex, hr, hde] at herr
          rw [← herr]
          exact parseFailMsg_contains p e
  · intro fs p err herr
    cases hpar : p.parent with
    | none =>
      have h : (serializeAndWrite ser v p fs).2 = Except.error err := by
        simpa [save_json_config, hpar] using herr
      rcases serializeAndWrite_error ser v p fs err h with ⟨e, hser, he⟩ | ⟨e, he⟩
      · exact Or.inr (Or.inl ⟨e, hser, he, he ▸ serFailMsg_contains_cause e⟩)
      · exact Or.inr (Or.inr ⟨e, he, he ▸ writeFailMsg_contains p e⟩)
    | some par =>
      cases hcd : fs.createDirAll par with
      | mk fs1 r =>
        cases r with
        | error e =>
          simp [save_json_config, hpar, hcd] at herr
          exact Or.inl ⟨par, e, rfl, herr.symm, herr ▸ dirFailMsg_contains par e⟩
        | ok u =>
          cases u
          have h : (serializeAndWrite ser v p fs1).2 = Except.error err := by
            simpa [save_json_config, hpar, hcd] using herr
          rcases serializeAndWrite_error ser v p fs1 err h with ⟨e, hser, he⟩ | ⟨e, he⟩
          · exact Or.inr (Or.inl ⟨e, hser, he, he ▸ serFailMsg_contains_cause e⟩)
          · exact Or.inr (Or.inr ⟨e, he, he ▸ writeFailMsg_contains p e⟩)

/-- C8 amended-claim witness: a concrete parse failure at
`/home/user/.claude/settings.json` yields a message containing that
path. -/
theorem error_messages_content_witness :
    strContainsB
      (parseFailMsg (parsePath "/home/user/.claude/settings.json")
        "expected value at line 1 column 1")
      (RPath.render (parsePath "/home/user/.claude/settings.json")) = true :=
  (error_messages_content demoDe ⟨"", 0⟩ demoSer ⟨"test", 42⟩).1
    (FS.mk [(⟨true, ["home", "user", ".claude", "settings.json"]⟩,
             Entry.file "oops not json")])
    (parsePath "/home/user/.claude/settings.json")
    (parseFailMsg (parsePath "/home/user/.claude/settings.json")
      "expected value at line 1 column 1")
    (by decide)
